import Mathlib

/-!
Verification of the ebpf-proc-comparison repository core: the isolated-CPU
attribution tracker (package `isolated`), the batch drain of the active-process
table (package `ebpf`, `GetActiveProcs`), the per-tick sample/delta/report
computation (`collectAndPrintCPUData` / `calculateUsageData`), and the periodic
loop's minimum-interval guard (`run`).

Modelling conventions:
* Go `map[K]V` values are modelled as association lists `List (Nat × V)` with
  unique keys; `lookupA`, `insertA`, `removeA` mirror Go map read, write and
  `delete`.  Go map iteration order is unspecified; where the code iterates a
  map we take the association list's order as the (arbitrary) enumeration.
* Go `uint64` arithmetic is modelled on `Nat` with explicit reduction
  `% 2 ^ 64`; `sub64` is the wrapping subtraction `a - b` on `uint64`.
* Go `float64` quotients `float64(n) / float64(clkTck)` are modelled exactly
  over `ℚ` (the claims under study concern ordering, zeroness, sign and the
  wrap-around value, none of which depend on float64 rounding).
* `sort.Slice` is unstable and its comparator here looks only at `CPUDelta`;
  the emitted order is therefore nondeterministic on ties.  We model the set of
  possible outputs as the permutations of the input that satisfy the
  comparator's sortedness contract (`usageSortOutcome`).
-/

/-- Go map read `v, ok := m[k]` on an association list: first binding wins. -/
def lookupA {β : Type} (l : List (Nat × β)) (k : Nat) : Option β :=
  match l with
  | [] => none
  | (k2, v) :: rest => if k2 = k then some v else lookupA rest k

/-- Go map write `m[k] = v` on an association list: replace or append. -/
def insertA {β : Type} (l : List (Nat × β)) (k : Nat) (v : β) : List (Nat × β) :=
  match l with
  | [] => [(k, v)]
  | (k2, v2) :: rest => if k2 = k then (k, v) :: rest else (k2, v2) :: insertA rest k v

/-- Go map `delete(m, k)` on an association list. -/
def removeA {β : Type} (l : List (Nat × β)) (k : Nat) : List (Nat × β) :=
  match l with
  | [] => []
  | (k2, v2) :: rest => if k2 = k then removeA rest k else (k2, v2) :: removeA rest k

/-- `maps.Values` of a Go map modelled on an association list. -/
def valuesA {β : Type} (l : List (Nat × β)) : List β :=
  l.map Prod.snd

/-- One row of the kernel-side `active_procs` table as surfaced by
`ebpf.ActiveProcs` (`{Pid uint32; Cpu int; Comm string}`, the `Cpu`/`Comm`
fields decoded from `keplerActiveProc`). -/
structure ActiveProc where
  pid : Nat
  cpu : Nat
  comm : String
deriving DecidableEq, Repr

namespace isolated

/-- `procsTracker` of package `isolated` (the variant with `RemoveTracking`):
two generation maps `currentProcs` and `previousProcs`, keyed by pid. -/
structure ProcsTracker where
  currentProcs : List (Nat × ActiveProc)
  previousProcs : List (Nat × ActiveProc)
deriving DecidableEq, Repr

/-- The package-level mutable state of `isolated`: `procs` maps a cpu id to its
`procsTracker` value and `cpus` is the global pid-to-cpu association. -/
structure IsolatedState where
  procs : List (Nat × ProcsTracker)
  cpus : List (Nat × Nat)
deriving DecidableEq, Repr

/-- `isolated.Init(isolated)`: store a tracker with two fresh empty maps for
every cpu of the isolated set (the globals start out empty). -/
def Init (isolatedCpus : List Nat) : IsolatedState :=
  { procs := isolatedCpus.foldl (fun m c => insertA m c ⟨[], []⟩) []
    cpus := [] }

/-- `isolated.Track(cpu, proc)`.  Go: `t, _ := procs[cpu]` copies the struct
value, but `t.currentProcs[proc.Pid] = proc` writes through the copied map
header into the very map stored in `procs[cpu]`, so the insertion persists;
`cpus[proc.Pid] = cpu` records the association.  When `cpu` was never passed
to `Init`, `t.currentProcs` is the nil map and the assignment panics — that
run-time panic is modelled as `none`. -/
def Track (s : IsolatedState) (cpu : Nat) (proc : ActiveProc) : Option IsolatedState :=
  match lookupA s.procs cpu with
  | some t =>
      some { procs := insertA s.procs cpu
               { t with currentProcs := insertA t.currentProcs proc.pid proc }
             cpus := insertA s.cpus proc.pid cpu }
  | none => none

/-- `isolated.RemoveTracking(pid)`.  Go: `cpu := cpus[pid]` (zero value `0`
when the pid has no association), `delete(cpus, pid)`, `pt := procs[cpu]`
(struct copy), `delete(pt.currentProcs, pid)` — the delete acts through the
shared map header on the stored current-generation map of that one cpu; when
`cpu` is not in `procs` the copy's map is nil and the delete is a no-op.
`previousProcs` is never touched. -/
def RemoveTracking (s : IsolatedState) (pid : Nat) : IsolatedState :=
  let cpu := (lookupA s.cpus pid).getD 0
  let cpus2 := removeA s.cpus pid
  match lookupA s.procs cpu with
  | some pt =>
      { procs := insertA s.procs cpu { pt with currentProcs := removeA pt.currentProcs pid }
        cpus := cpus2 }
  | none => { procs := s.procs, cpus := cpus2 }

/-- `isolated.ActiveProcs(cpu)` — returns the answer list and the state after
the call.  Go: `t, _ := procs[cpu]` copies the `procsTracker` struct value out
of the map.  In the non-empty branch the code executes
`t.previousProcs = t.currentProcs; t.currentProcs = map[Pid]ebpf.ActiveProc{}`:
both assignments replace map headers inside the local copy `t` only; the entry
stored in `procs[cpu]` is never written back, so the stored state is unchanged
by the call (the comment "current becomes previous" notwithstanding).  The
returned slice is `slices.Collect(maps.Values(activeProcs))` over the alias
captured before the reassignment. -/
def ActiveProcs (s : IsolatedState) (cpu : Nat) : List ActiveProc × IsolatedState :=
  let t := (lookupA s.procs cpu).getD ⟨[], []⟩
  if t.currentProcs.length ≠ 0 then
    (valuesA t.currentProcs, s)
  else
    (valuesA t.previousProcs, s)

end isolated

/-- The record tracked for pid 5 on cpu 0 in the claims' concrete scenarios. -/
def rec5 : ActiveProc := { pid := 5, cpu := 0, comm := "p5" }

/-- The same pid 5 observed on cpu 1 (a later context switch on another cpu). -/
def rec5cpu1 : ActiveProc := { pid := 5, cpu := 1, comm := "p5" }

/-- State after `Init([0]); Track(0, rec5)`. -/
def s1 : isolated.IsolatedState :=
  { procs := [(0, ⟨[(5, rec5)], []⟩)], cpus := [(5, 0)] }

example : isolated.Track (isolated.Init [0]) 0 rec5 = some s1 := by decide

example : (isolated.ActiveProcs s1 0).fst = [rec5] := by decide

example : isolated.RemoveTracking s1 5 =
    { procs := [(0, ⟨[], []⟩)], cpus := [] } := by decide

namespace ebpf

/-- One element of the `values` buffer of `GetActiveProcs`
(`keplerActiveProc`: pid plus NUL-trimmed comm; the cpu field is dropped in
the variant under study). -/
structure KRow where
  pid : Nat
  comm : String
deriving DecidableEq, Repr

/-- The zero value a freshly `make`-allocated `keplerActiveProc` slot holds. -/
def zeroKRow : KRow := { pid := 0, comm := "" }

/-- One kernel `BatchLookupAndDelete` call copies its `count` rows into the
prefix `values[0:count]` of the caller's buffer, leaving the rest alone. -/
def overwritePrefix (buf batch : List KRow) : List KRow :=
  batch ++ buf.drop batch.length

/-- The drain loop of `GetActiveProcs`: `keys`/`values` are allocated once
with `maxEntries` zero-valued slots; every iteration passes the same full
buffers, so the kernel writes each batch at offset 0; `total += count`
accumulates across iterations and the loop ends when the kernel reports
`ErrKeyNotExist`; the function finally returns the rows `values[:total]`.
The kernel side is abstracted as the list of batches it delivers across the
successive calls (the last one accompanied by `ErrKeyNotExist`). -/
def drainActiveProcs (maxEntries : Nat) (batches : List (List KRow)) : List KRow :=
  let finalBuf := batches.foldl overwritePrefix (List.replicate maxEntries zeroKRow)
  finalBuf.take (batches.map List.length).sum

end ebpf

/-- `ProcessData` of the hybrid cpu-time variant (`part_001`): per-pid state
kept in the Go maps `currentData` (CPUTime set, LastTime zero) and
`processData` (LastTime set to the last seen cumulative value). -/
structure ProcessData where
  cpuTime : Nat
  lastTime : Nat
  comm : String
  executable : String
deriving DecidableEq, Repr

/-- `ProcessUsage` of `part_001`: the per-tick derived record. `CPUDelta` and
`TotalTime` are float64 quotients, modelled exactly over `ℚ`. -/
structure ProcessUsage where
  pid : Nat
  cpuDelta : ℚ
  totalTime : ℚ
  comm : String
  executable : String
deriving DecidableEq, Repr

/-- Go `uint64` subtraction `a - b`: wrap-around modulo `2 ^ 64`. -/
def sub64 (a b : Nat) : Nat :=
  ((2 ^ 64 + a % 2 ^ 64) - b % 2 ^ 64) % 2 ^ 64

/-- The loop body of `calculateUsageData` for one entry `pid ↦ current` of
`currentData`: `TotalTime` is unconditional; `CPUDelta` stays at its zero
value unless `processData` already holds a previous sample for the pid, in
which case it is the wrapping `uint64` difference `current.CPUTime -
prev.LastTime` divided by `clkTck`. -/
def usageOf (processData : List (Nat × ProcessData)) (clkTck : Nat)
    (pid : Nat) (current : ProcessData) : ProcessUsage :=
  { pid := pid
    totalTime := (current.cpuTime : ℚ) / (clkTck : ℚ)
    cpuDelta :=
      match lookupA processData pid with
      | some prev => (sub64 current.cpuTime prev.lastTime : ℚ) / (clkTck : ℚ)
      | none => 0
    comm := current.comm
    executable := current.executable }

/-- The accumulation loop of `calculateUsageData` (`part_001`, before the
sort): one `ProcessUsage` per entry of `currentData`, appended in iteration
order. -/
def calculateUsage (currentData processData : List (Nat × ProcessData))
    (clkTck : Nat) : List ProcessUsage :=
  currentData.map (fun kv => usageOf processData clkTck kv.fst kv.snd)

/-- The postcondition `sort.Slice` establishes for the comparator
`usageData[i].CPUDelta > usageData[j].CPUDelta`: adjacent elements are in
non-increasing `CPUDelta` order (the comparator inspects nothing else). -/
def sortedByCpuDelta : List ProcessUsage → Bool
  | [] => true
  | [_] => true
  | a :: b :: rest => decide (b.cpuDelta ≤ a.cpuDelta) && sortedByCpuDelta (b :: rest)

/-- The set of lists the unstable `sort.Slice` may leave in `usageData`: any
permutation of the input that satisfies the comparator's sortedness contract
(ties and the map-iteration input order are both unspecified). -/
def usageSortOutcome (l out : List ProcessUsage) : Prop :=
  l.Perm out ∧ sortedByCpuDelta out = true

/-- `updateStoredData` (`part_001`): for every entry of `currentData`, store a
`ProcessData` whose `LastTime` (and `CPUTime`) is the newly observed
cumulative value. -/
def updateStoredData (processData currentData : List (Nat × ProcessData)) :
    List (Nat × ProcessData) :=
  currentData.foldl
    (fun pd kv => insertA pd kv.fst
      { cpuTime := kv.snd.cpuTime, lastTime := kv.snd.cpuTime
        comm := kv.snd.comm, executable := kv.snd.executable })
    processData

/-- `collectAndPrintCPUData` (`part_001`), with the drain and the kernel batch
delete abstracted: `currentData` is what `collectCurrentData` produced and
`batchDeleteErr` the outcome of `objs.ProcessMap.BatchDelete(keys, nil)`.  On a
batch-delete failure the function returns the error immediately — before
`calculateUsageData`, `updateStoredData` and `printResults` run.  On success it
yields the updated stored state and the usage records handed to the sort and
the printer. -/
def collectAndPrintCPUData (currentData : List (Nat × ProcessData))
    (batchDeleteErr : Option String) (processData : List (Nat × ProcessData))
    (clkTck : Nat) :
    Except String (List (Nat × ProcessData) × List ProcessUsage) :=
  match batchDeleteErr with
  | some e => Except.error ("failed to batch delete keys: " ++ e)
  | none =>
      Except.ok (updateStoredData processData currentData,
                 calculateUsage currentData processData clkTck)

/-- The tick body of `collectAndPrintCPUData` in `part_000`: deltas, state
update and report all happen unconditionally; the subsequent
`objs.CpuTimeMap.Delete(nil)` failure only emits a `log.Printf` warning line.
Result: (updated stored state, usage records, warning log lines). -/
def collectTickWholesale (currentData processData : List (Nat × ProcessData))
    (clkTck : Nat) (clearErr : Option String) :
    List (Nat × ProcessData) × List ProcessUsage × List String :=
  (updateStoredData processData currentData,
   calculateUsage currentData processData clkTck,
   match clearErr with
   | some e => ["Warning: failed to clear CPU time map: " ++ e]
   | none => [])

/-- The pid list `collectCurrentData` accumulates while iterating the kernel
table: exactly the keys of the rows read, later passed to `BatchDelete`. -/
def readKeys (currentData : List (Nat × ProcessData)) : List Nat :=
  currentData.map Prod.fst

/-- The kernel hash-table state, pid to stored value. -/
def KTable := List (Nat × Nat)

/-- Kernel semantics of `BatchDelete(keys, nil)`: each listed key that is
present is deleted; every other entry is untouched. -/
def batchDelete (table : List (Nat × Nat)) (keys : List Nat) : List (Nat × Nat) :=
  table.filter (fun kv => !(keys.contains kv.fst))

/-- The minimum-interval guard constant of `run` (hybrid `main.go`): ticks with
`timeDiffSec < 0.1` are skipped via `continue`. -/
def minIntervalSec : ℚ := 1 / 10

/-- The tick-admission behaviour of `run` (hybrid `main.go` / `part_003`):
`oldTs := time.Now()` is taken once before the loop and never reassigned, so
every tick is compared against the same loop-start instant; a tick is
processed (drain, per-pid reads, report) exactly when `newTs - oldTs` is at
least `0.1` seconds.  Timestamps are seconds as `ℚ`. -/
def processedTicks (oldTs : ℚ) (ticks : List ℚ) : List ℚ :=
  ticks.filter (fun newTs => decide (minIntervalSec ≤ newTs - oldTs))

section AssocLemmas

variable {β : Type}

theorem lookupA_insertA_self (l : List (Nat × β)) (k : Nat) (v : β) :
    lookupA (insertA l k v) k = some v := by
  induction l with
  | nil => simp [insertA, lookupA]
  | cons hd tl ih =>
      by_cases h : hd.fst = k
      · simp [insertA, lookupA, h]
      · simp [insertA, lookupA, h, ih]

theorem lookupA_insertA_ne (l : List (Nat × β)) (k k2 : Nat) (v : β)
    (h : k ≠ k2) : lookupA (insertA l k v) k2 = lookupA l k2 := by
  induction l with
  | nil => simp [insertA, lookupA, h]
  | cons hd tl ih =>
      by_cases hh : hd.fst = k
      · have h2 : hd.fst ≠ k2 := by rw [hh]; exact h
        simp [insertA, lookupA, hh, h2, h]
      · by_cases h2 : hd.fst = k2
        · simp [insertA, lookupA, hh, h2, Ne.symm h]
        · simp [insertA, lookupA, hh, h2, ih]

theorem lookupA_removeA_self (l : List (Nat × β)) (k : Nat) :
    lookupA (removeA l k) k = none := by
  induction l with
  | nil => simp [removeA, lookupA]
  | cons hd tl ih =>
      by_cases h : hd.fst = k
      · simp [removeA, h, ih]
      · simp [removeA, lookupA, h, ih]

theorem lookupA_removeA_ne (l : List (Nat × β)) (k k2 : Nat) (h : k ≠ k2) :
    lookupA (removeA l k) k2 = lookupA l k2 := by
  induction l with
  | nil => simp [removeA]
  | cons hd tl ih =>
      by_cases hh : hd.fst = k
      · simp [removeA, lookupA, hh, h, ih]
      · by_cases h2 : hd.fst = k2
        · simp [removeA, lookupA, hh, h2, Ne.symm h]
        · simp [removeA, lookupA, hh, h2, ih]

theorem lookupA_batchDelete (table : List (Nat × Nat)) (keys : List Nat)
    (pid : Nat) :
    lookupA (batchDelete table keys) pid =
      if keys.contains pid then none else lookupA table pid := by
  induction table with
  | nil => simp [batchDelete, lookupA]
  | cons hd tl ih =>
      simp only [batchDelete, List.filter_cons] at ih ⊢
      by_cases hc : hd.fst ∈ keys
      · by_cases hp : hd.fst = pid
        · subst hp
          simpa [hc, lookupA] using ih
        · simpa [hc, lookupA, hp] using ih
      · by_cases hp : hd.fst = pid
        · subst hp
          simp [hc, lookupA]
        · simpa [hc, lookupA, hp] using ih

end AssocLemmas

/-- State after `Init([0, 1]); Track(0, rec5)`. -/
def sA : isolated.IsolatedState :=
  { procs := [(0, ⟨[(5, rec5)], []⟩), (1, ⟨[], []⟩)], cpus := [(5, 0)] }

/-- State after `Init([0, 1]); Track(0, rec5); Track(1, rec5cpu1)`. -/
def sB : isolated.IsolatedState :=
  { procs := [(0, ⟨[(5, rec5)], []⟩), (1, ⟨[(5, rec5cpu1)], []⟩)], cpus := [(5, 1)] }

/-- State after additionally calling `RemoveTracking(5)` on `sB`. -/
def sC : isolated.IsolatedState :=
  { procs := [(0, ⟨[(5, rec5)], []⟩), (1, ⟨[], []⟩)], cpus := [] }

/-- State after `RemoveTracking(5)` on `s1`. -/
def s1r : isolated.IsolatedState :=
  { procs := [(0, ⟨[], []⟩)], cpus := [] }

/-- C1.  For every CPU c passed to Init and every tick, if ActiveProcs(c) is
called while c's current-generation map is non-empty, it returns exactly that
map's values, and after the call the tracker's stored state for c has a fresh
empty map as the current generation and the records just returned as the
previous generation; if the current-generation map is empty, it returns the
previous generation's values and leaves both stored maps unchanged.
REFUTED on the code at `Init([0]); Track(0, rec5); ActiveProcs(0)`: the call
does return the current map's values, but the swap
`t.previousProcs = t.currentProcs; t.currentProcs = map{}` is performed on the
struct copy `t := procs[cpu]` and is never written back, so the stored state
is completely unchanged: the current generation still holds `rec5` (it is not
a fresh empty map) and the previous generation is still empty (it does not
hold the records just returned).  The code's own comment "current becomes
previous" documents the intended behaviour, making this a code bug. -/
theorem c1_generation_swap_not_persisted :
    isolated.Track (isolated.Init [0]) 0 rec5 = some s1 ∧
    isolated.ActiveProcs s1 0 = ([rec5], s1) ∧
    lookupA s1.procs 0 = some { currentProcs := [(5, rec5)], previousProcs := [] } := by
  exact ⟨by decide, by decide, by decide⟩

/-- C2, counterexample to the general statement.  `RemoveTracking(pid)` does
not remove the pid "from whichever generation map holds it": after
`Init([0,1]); Track(0, rec5); Track(1, rec5cpu1); RemoveTracking(5)` the pid→cpu
association pointed at cpu 1, so only cpu 1's current map is purged; cpu 0's
current-generation map still holds pid 5's record, and `ActiveProcs(0)` keeps
reporting it. -/
theorem c2_remove_tracking_counterexample :
    isolated.Track (isolated.Init [0, 1]) 0 rec5 = some sA ∧
    isolated.Track sA 1 rec5cpu1 = some sB ∧
    isolated.RemoveTracking sB 5 = sC ∧
    lookupA ((lookupA sC.procs 0).getD ⟨[], []⟩).currentProcs 5 = some rec5 ∧
    (isolated.ActiveProcs sC 0).fst = [rec5] := by
  exact ⟨by decide, by decide, by decide, by decide, by decide⟩

/-- C2, amended.  The claim's concrete scenario does hold:
`Init({0}); Track(0, pid 5); ActiveProcs(0); RemoveTracking(5)` makes the next
`ActiveProcs(0)` return `[]` (because, the generation swap never persisting,
pid 5 was still in the current map, which is exactly the map `RemoveTracking`
purges).  In general `RemoveTracking(pid)` clears the pid→cpu association and
removes the pid only from the current-generation map of the CPU recorded in
that association (defaulting to CPU 0 when absent); every other CPU's stored
tracker is untouched, and no previous-generation map is ever purged. -/
theorem c2_remove_tracking_amended (s : isolated.IsolatedState)
    (pid c2 : Nat) (pt : isolated.ProcsTracker) :
    (isolated.ActiveProcs s1 0 = ([rec5], s1) ∧
     isolated.RemoveTracking s1 5 = s1r ∧
     (isolated.ActiveProcs s1r 0).fst = []) ∧
    lookupA (isolated.RemoveTracking s pid).cpus pid = none ∧
    (c2 ≠ (lookupA s.cpus pid).getD 0 →
      lookupA (isolated.RemoveTracking s pid).procs c2 = lookupA s.procs c2) ∧
    (lookupA s.procs ((lookupA s.cpus pid).getD 0) = some pt →
      lookupA (isolated.RemoveTracking s pid).procs ((lookupA s.cpus pid).getD 0) =
        some ⟨removeA pt.currentProcs pid, pt.previousProcs⟩) := by
  refine ⟨⟨by decide, by decide, by decide⟩, ?_, ?_, ?_⟩
  · unfold isolated.RemoveTracking
    cases h : lookupA s.procs ((lookupA s.cpus pid).getD 0) <;>
      simp [h, lookupA_removeA_self]
  · intro hne
    unfold isolated.RemoveTracking
    cases h : lookupA s.procs ((lookupA s.cpus pid).getD 0) <;> simp [h]
    exact lookupA_insertA_ne _ _ _ _ (Ne.symm hne)
  · intro hpt
    unfold isolated.RemoveTracking
    simp [hpt, lookupA_insertA_self]

/-- Closed witness for `c2_remove_tracking_amended` at `sB`, pid 5, cpu 0. -/
theorem c2_remove_tracking_amended_witness :
    (0 ≠ (lookupA sB.cpus 5).getD 0 →
      lookupA (isolated.RemoveTracking sB 5).procs 0 = lookupA sB.procs 0) ∧
    lookupA (isolated.RemoveTracking sB 5).cpus 5 = none :=
  ⟨(c2_remove_tracking_amended sB 5 0 ⟨[], []⟩).2.2.1,
   (c2_remove_tracking_amended sB 5 0 ⟨[], []⟩).2.1⟩

/-- The rows delivered by the kernel in the two-batch drain scenario. -/
def r1 : ebpf.KRow := { pid := 1, comm := "a" }

/-- Second row of the first kernel batch. -/
def r2 : ebpf.KRow := { pid := 2, comm := "b" }

/-- The single row of the second kernel batch. -/
def r3 : ebpf.KRow := { pid := 3, comm := "c" }

/-- C3.  The drain loop is claimed to accumulate every row of every batch
exactly once.  REFUTED when the table spans two batch transfers: the loop
passes the same `keys`/`values` buffers to every `BatchLookupAndDelete` call,
so the second batch overwrites the first batch's rows at the start of the
buffer while `total` keeps growing; `values[:total]` then contains the second
batch, the tail of the first batch, and zero-valued slots — here, with
capacity 4 and batches `[r1, r2]` then `[r3]`, the returned rows are
`[r3, r2, zero]`: `r1` is lost and a spurious zero row is reported.  The
`total += count` accumulation shows the intent was to keep all rows, making
this a code bug. -/
theorem c3_drain_loses_first_batch :
    ebpf.drainActiveProcs 4 [[r1, r2], [r3]] = [r3, r2, ebpf.zeroKRow] ∧
    r1 ∉ ebpf.drainActiveProcs 4 [[r1, r2], [r3]] := by
  exact ⟨by decide, by decide⟩

/-- C8.  The claim says a tick firing less than 0.1 s after the previously
processed tick is skipped.  REFUTED: `oldTs` is initialised once before the
loop and never updated, so the guard compares each tick against the loop
start.  With loop start at 0 s and ticks at 5 s and 5.001 s, both ticks are
processed although the second fires 0.001 s (< 0.1 s) after the previously
processed tick.  (Conversely the guard only ever skips ticks in the first
0.1 s after startup.)  The guard's evident purpose — the minimum drain
interval — makes the missing `oldTs = newTs` update a code bug. -/
theorem c8_min_interval_guard_ineffective :
    processedTicks 0 [5, 5 + 1 / 1000] = [5, 5 + 1 / 1000] ∧
    ((5 + 1 / 1000 : ℚ) - 5 < minIntervalSec) := by
  constructor
  · norm_num [processedTicks, List.filter_cons, minIntervalSec]
  · norm_num [minIntervalSec]

/-- Rows read in the C4 scenario's drain. -/
def cdC4 : List (Nat × ProcessData) := [(1, ⟨100, 0, "x", "/x"⟩)]

/-- Stored per-pid samples before the C4 scenario's tick. -/
def pdC4 : List (Nat × ProcessData) := [(1, ⟨40, 40, "x", "/x"⟩)]

/-- C4, counterexample.  In the refactored hybrid variant (`part_001`,
`collectAndPrintCPUData`), a failing `objs.ProcessMap.BatchDelete(keys, nil)`
is returned as an error immediately: the tick computes no deltas, updates no
stored per-pid state, and emits no report, and the clear error IS escalated to
the caller (`monitor`, which logs it).  This refutes the claim that a
table-clear failure is logged only and never aborts the tick. -/
theorem c4_clear_failure_aborts_tick :
    collectAndPrintCPUData cdC4 (some "boom") pdC4 100 =
      Except.error "failed to batch delete keys: boom" ∧
    ∀ st report, collectAndPrintCPUData cdC4 (some "boom") pdC4 100 ≠
      Except.ok (st, report) := by
  refine ⟨rfl, ?_⟩
  intro st report h
  simp [collectAndPrintCPUData] at h

/-- C4, amended.  The log-only policy holds in the `part_000` variant: there a
clear failure (`objs.CpuTimeMap.Delete(nil)`) adds a warning log line and the
tick's stored-state update and usage records are exactly those of a tick whose
clear succeeded.  In the `part_001` variant the batch-delete failure aborts
the tick and escalates the error to the caller. -/
theorem c4_clear_failure_amended (cd pd : List (Nat × ProcessData))
    (clk : Nat) (e : String) :
    (collectTickWholesale cd pd clk (some e)).1 =
      (collectTickWholesale cd pd clk none).1 ∧
    (collectTickWholesale cd pd clk (some e)).2.1 =
      (collectTickWholesale cd pd clk none).2.1 ∧
    (collectTickWholesale cd pd clk (some e)).2.2 =
      ["Warning: failed to clear CPU time map: " ++ e] ∧
    collectAndPrintCPUData cd (some e) pd clk =
      Except.error ("failed to batch delete keys: " ++ e) :=
  ⟨rfl, rfl, rfl, rfl⟩

/-- Rows read by the C5 scenario's drain: pids 1 and 2 with their values. -/
def cdDrain : List (Nat × ProcessData) :=
  [(1, ⟨100, 0, "", ""⟩), (2, ⟨200, 0, "", ""⟩)]

/-- C5.  The post-drain clear (`BatchDelete` of exactly the pids collected
while iterating, `part_001`) deletes exactly the keys read and nothing else:
for every table, key set and pid, a pid is absent after the clear iff it was
among the read keys, and otherwise its binding is untouched.  In the claim's
concrete scenario — drain reads `{(1,100),(2,200)}`, concurrent write of
`(3,50)` lands before the clear — pid 3 is still present afterwards. -/
theorem c5_clear_only_read_keys :
    (∀ table keys pid,
      lookupA (batchDelete table keys) pid =
        if keys.contains pid then none else lookupA table pid) ∧
    readKeys cdDrain = [1, 2] ∧
    batchDelete [(1, 100), (2, 200), (3, 50)] (readKeys cdDrain) = [(3, 50)] ∧
    lookupA (batchDelete [(1, 100), (2, 200), (3, 50)] (readKeys cdDrain)) 3 =
      some 50 := by
  exact ⟨lookupA_batchDelete, by decide, by decide, by decide⟩



/-- Previous-tick samples for the C6 ordering scenario (every pid has a
baseline of 0 ticks). -/
def pdC6 : List (Nat × ProcessData) :=
  [(10, ⟨0, 0, "", ""⟩), (11, ⟨0, 0, "", ""⟩), (12, ⟨0, 0, "", ""⟩)]

/-- Rows read in the C6 ordering scenario (clkTck = 1, so the cumulative
values 2, 5, 5 are also the deltas in seconds). -/
def cdC6 : List (Nat × ProcessData) :=
  [(10, ⟨2, 0, "", ""⟩), (11, ⟨5, 0, "", ""⟩), (12, ⟨5, 0, "", ""⟩)]

/-- Usage record for pid 10 (delta 2.0 s) in the C6 scenario. -/
def u10 : ProcessUsage := { pid := 10, cpuDelta := 2, totalTime := 2, comm := "", executable := "" }

/-- Usage record for pid 11 (delta 5.0 s) in the C6 scenario. -/
def u11 : ProcessUsage := { pid := 11, cpuDelta := 5, totalTime := 5, comm := "", executable := "" }

/-- Usage record for pid 12 (delta 5.0 s) in the C6 scenario. -/
def u12 : ProcessUsage := { pid := 12, cpuDelta := 5, totalTime := 5, comm := "", executable := "" }

theorem calcC6_eval : calculateUsage cdC6 pdC6 1 = [u10, u11, u12] := by
  norm_num [calculateUsage, cdC6, pdC6, usageOf, lookupA, sub64, u10, u11, u12]

/-- C6, counterexample.  The comparator passed to `sort.Slice` is
`usageData[i].CPUDelta > usageData[j].CPUDelta` — it never inspects the pid —
and `sort.Slice` is documented as unstable while the input order is Go map
iteration order.  For the claim's own example (deltas 2.0, 5.0, 5.0 for pids
10, 11, 12) the output `[(12,5.0),(11,5.0),(10,2.0)]` is a permutation of the
usage records satisfying the comparator's sortedness contract, yet differs
from the claimed deterministic tie-broken order `[(11,5.0),(12,5.0),(10,2.0)]`:
the code does not guarantee ascending-pid ties. -/
theorem c6_tie_break_counterexample :
    usageSortOutcome (calculateUsage cdC6 pdC6 1) [u12, u11, u10] ∧
    [u12, u11, u10] ≠ [u11, u12, u10] := by
  refine ⟨⟨?_, ?_⟩, ?_⟩
  · rw [calcC6_eval]
    exact (List.reverse_perm [u10, u11, u12]).symm
  · norm_num [sortedByCpuDelta, u10, u11, u12]
  · simp [u10, u11, u12]

/-- C6, amended.  The emitted report is sorted by descending `cpuDeltaSeconds`
only; the order of records with equal deltas is unspecified (unstable sort,
comparator blind to pids).  At the claim's example the admissible outputs are
exactly the two tie orders `[(11),(12),(10)]` and `[(12),(11),(10)]` — the
descending-delta shape is forced, the ascending-pid tie-break is not. -/
theorem c6_tie_break_amended (out : List ProcessUsage)
    (h : usageSortOutcome (calculateUsage cdC6 pdC6 1) out) :
    out = [u11, u12, u10] ∨ out = [u12, u11, u10] := by
  obtain ⟨hp, hs⟩ := h
  rw [calcC6_eval] at hp
  have hmem : out ∈ [u10, u11, u12].permutations' := List.mem_permutations'.mpr hp.symm
  have hperms : [u10, u11, u12].permutations' =
      [[u10, u11, u12], [u11, u10, u12], [u11, u12, u10],
       [u10, u12, u11], [u12, u10, u11], [u12, u11, u10]] := rfl
  rw [hperms] at hmem
  simp only [List.mem_cons, List.not_mem_nil, or_false] at hmem
  rcases hmem with rfl | rfl | rfl | rfl | rfl | rfl
  · exact absurd hs (by norm_num [sortedByCpuDelta, u10, u11, u12])
  · exact absurd hs (by norm_num [sortedByCpuDelta, u10, u11, u12])
  · exact Or.inl rfl
  · exact absurd hs (by norm_num [sortedByCpuDelta, u10, u11, u12])
  · exact absurd hs (by norm_num [sortedByCpuDelta, u10, u11, u12])
  · exact Or.inr rfl

/-- Closed witness for `c6_tie_break_amended`: the tie order with pid 11
first is an admissible sort outcome. -/
theorem c6_tie_break_amended_witness :
    usageSortOutcome (calculateUsage cdC6 pdC6 1) [u11, u12, u10] ∧
    ([u11, u12, u10] = [u11, u12, u10] ∨ [u11, u12, u10] = [u12, u11, u10]) := by
  have hout : usageSortOutcome (calculateUsage cdC6 pdC6 1) [u11, u12, u10] := by
    constructor
    · rw [calcC6_eval]
      have h1 : [u10, u11, u12].Perm [u11, u10, u12] := List.Perm.swap _ _ _
      have h2 : [u11, u10, u12].Perm [u11, u12, u10] :=
        List.Perm.cons _ (List.Perm.swap _ _ _)
      exact h1.trans h2
    · norm_num [sortedByCpuDelta, u10, u11, u12]
  exact ⟨hout, c6_tie_break_amended [u11, u12, u10] hout⟩

/-- C7.  A pid with no prior `ProcessSample` (no binding in `processData`)
gets `CPUDelta = 0` — the Go struct's zero value is never overwritten because
the `if prev, exists := processData[pid]; exists` branch is not taken — and
its record is still appended to `usageData` and survives the sort into every
admissible emitted report: first-tick pids are reported with a zero delta, not
filtered. -/
theorem c7_first_appearance_zero_delta (cd pd : List (Nat × ProcessData))
    (clk pid : Nat) (cur : ProcessData) (out : List ProcessUsage)
    (hnew : lookupA pd pid = none) (hmem : (pid, cur) ∈ cd)
    (hout : usageSortOutcome (calculateUsage cd pd clk) out) :
    usageOf pd clk pid cur ∈ out ∧ (usageOf pd clk pid cur).cpuDelta = 0 := by
  have hdelta : (usageOf pd clk pid cur).cpuDelta = 0 := by
    simp [usageOf, hnew]
  refine ⟨?_, hdelta⟩
  have hin : usageOf pd clk pid cur ∈ calculateUsage cd pd clk := by
    have hm := List.mem_map_of_mem
      (fun kv : Nat × ProcessData => usageOf pd clk kv.fst kv.snd) hmem
    simpa [calculateUsage] using hm
  exact hout.1.mem_iff.mp hin

/-- The row read for the never-before-seen pid 7 in the C7 witness. -/
def curC7 : ProcessData := { cpuTime := 123, lastTime := 0, comm := "n", executable := "/n" }

/-- Closed witness for `c7_first_appearance_zero_delta`: a tick that reads
only the fresh pid 7 reports it with delta 0. -/
theorem c7_first_appearance_zero_delta_witness :
    usageOf [] 1 7 curC7 ∈ calculateUsage [(7, curC7)] [] 1 ∧
    (usageOf [] 1 7 curC7).cpuDelta = 0 :=
  c7_first_appearance_zero_delta [(7, curC7)] [] 1 7 curC7
    (calculateUsage [(7, curC7)] [] 1) rfl (by simp)
    ⟨List.Perm.refl _, rfl⟩

theorem sub64_eq_int_emod (a b : Nat) (ha : a < 2 ^ 64) (hb : b < 2 ^ 64) :
    (sub64 a b : ℤ) = ((a : ℤ) - b) % (2 ^ 64 : ℤ) := by
  unfold sub64
  omega

/-- C9.  The per-pid delta is the unchecked `uint64` subtraction
`current.CPUTime - prev.LastTime`: whenever a previous sample exists, the
computed `cpuDeltaSeconds` equals `((new - old) mod 2^64) / clkTck`, and it is
never negative — a pid that reappears with a smaller cumulative value (pid
reuse) yields the enormous positive wrap-around value, not a negative delta. -/
theorem c9_unchecked_sub_wraps (pid : Nat) (cur prev : ProcessData)
    (pd : List (Nat × ProcessData)) (clk : Nat)
    (hprev : lookupA pd pid = some prev)
    (ha : cur.cpuTime < 2 ^ 64) (hb : prev.lastTime < 2 ^ 64) :
    (usageOf pd clk pid cur).cpuDelta =
      ((((cur.cpuTime : ℤ) - (prev.lastTime : ℤ)) % (2 ^ 64 : ℤ) : ℤ) : ℚ) / (clk : ℚ) ∧
    0 ≤ (usageOf pd clk pid cur).cpuDelta := by
  constructor
  · have h := sub64_eq_int_emod cur.cpuTime prev.lastTime ha hb
    simp only [usageOf, hprev]
    rw [← h]
    push_cast
    ring
  · simp only [usageOf, hprev]
    exact div_nonneg (by positivity) (by positivity)

/-- The stale sample stored for pid 5 before it was recycled (C9 witness). -/
def prevC9 : ProcessData := { cpuTime := 200, lastTime := 200, comm := "old", executable := "/old" }

/-- The recycled pid 5's row with a smaller cumulative value (C9 witness). -/
def curC9 : ProcessData := { cpuTime := 100, lastTime := 0, comm := "new", executable := "/new" }

/-- Stored samples for the C9 witness. -/
def pdC9 : List (Nat × ProcessData) := [(5, prevC9)]

/-- Closed witness for `c9_unchecked_sub_wraps` at the pid-reuse input
new = 100 < old = 200 with clkTck = 100. -/
theorem c9_unchecked_sub_wraps_witness :
    lookupA pdC9 5 = some prevC9 ∧ curC9.cpuTime < 2 ^ 64 ∧ prevC9.lastTime < 2 ^ 64 ∧
    ((usageOf pdC9 100 5 curC9).cpuDelta =
      ((((curC9.cpuTime : ℤ) - (prevC9.lastTime : ℤ)) % (2 ^ 64 : ℤ) : ℤ) : ℚ) /
        ((100 : ℕ) : ℚ) ∧
     0 ≤ (usageOf pdC9 100 5 curC9).cpuDelta) :=
  ⟨rfl, by norm_num [curC9], by norm_num [prevC9],
   c9_unchecked_sub_wraps 5 curC9 prevC9 pdC9 100 rfl
     (by norm_num [curC9]) (by norm_num [prevC9])⟩
